import Mathlib

/-! # qFlipper `Logger` (backend/logger.cpp)

A shallow embedding of the process-wide logging sink of qFlipper and the
properties its specification states about it.

The sink is a singleton object; it is modelled as a record of its member
variables together with the three outputs it produces: the bytes written to the
log file, the bytes written to standard error and the trace of Qt signals it
emitted.  Every member function becomes a pure function on that record.
-/

namespace QFlipper

/-! ## Data model -/

/-- The Qt enumeration `QtMsgType` (qlogging.h): the severity of a message. -/
inductive QtMsgType where
  | QtDebugMsg
  | QtWarningMsg
  | QtCriticalMsg
  | QtFatalMsg
  | QtInfoMsg
deriving DecidableEq, Repr

/-- Modelled from the spec: the enumeration `Logger::LogLevel` of logger.h, which is
not part of the sources at hand.  The specification names its three levels
`Default`, `ErrorsOnly` and `Terse`; logger.cpp uses all three by name. -/
inductive LogLevel where
  | Default
  | ErrorsOnly
  | Terse
deriving DecidableEq, Repr

/-- The least value of a C++ `int` (32 bits, two's complement). -/
def INT_MIN : Int := -2147483648

/-- The greatest value of a C++ `int`. -/
def INT_MAX : Int := 2147483647

/-- A C++ `int`: an integer within the 32-bit two's complement range. -/
abbrev CInt := { v : Int // INT_MIN ≤ v ∧ v ≤ INT_MAX }

/-- Reduction of an integer into the range of `int` (two's complement). -/
def wrapInt (x : Int) : Int := (x - INT_MIN) % 4294967296 + INT_MIN

/-- The C++ `+` on `int`.  Within range it is the mathematical sum; a sum out of
range (undefined behaviour in C++) is modelled as wrapping around, and every
statement below that depends on a sum assumes it is in range. -/
def CInt.add (a b : CInt) : CInt :=
  ⟨wrapInt (a.val + b.val), by
    unfold wrapInt INT_MIN INT_MAX
    constructor <;> omega⟩

/-- The `int` literal `0`. -/
def CInt.zero : CInt := ⟨0, by decide⟩

/-- The `int` literal `1`. -/
def CInt.one : CInt := ⟨1, by decide⟩

/-- The Qt signals of `Logger`, in the order they were emitted. -/
inductive Signal where
  /-- The signal `errorCountChanged()`. -/
  | errorCountChanged
  /-- The signal `messageArrived(const QString&)` with its payload. -/
  | messageArrived (text : String)
deriving DecidableEq, Repr

/-- An entry of the logs directory, as `QFileInfo` reports it. -/
structure FileInfo where
  /-- The value of `QFileInfo::fileName()`. -/
  fileName : String
  /-- The value of `QFileInfo::lastModified()`, in milliseconds since the epoch. -/
  lastModified : Int
  /-- Whether the entry matches the filter `QDir::Files`. -/
  isFile : Bool
deriving DecidableEq, Repr

/-- The `Logger` object: its member variables and what it has output so far. -/
structure Logger where
  /-- The entries of the directory `m_logDir` points to. -/
  dirEntries : List FileInfo
  /-- The value of `m_logFile->isOpen()`. -/
  logFileOpen : Bool
  /-- Everything written through `m_fileOut`. -/
  fileOut : String
  /-- Everything written through `m_stderr`. -/
  stderrOut : String
  /-- The member `m_logLevel`. -/
  m_logLevel : LogLevel
  /-- The member `m_errorCount`. -/
  m_errorCount : CInt
  /-- The member `m_buffer`. -/
  m_buffer : String
  /-- Whether `startTimer(250)` has been called. -/
  timerStarted : Bool
  /-- The signals emitted so far, oldest first. -/
  signals : List Signal
deriving DecidableEq

/-- What `Qt::endl` writes to a text stream. -/
def endl : String := "\n"

/-! ## Member functions -/

/-- The getter `Logger::errorCount`. -/
def errorCount (g : Logger) : CInt := g.m_errorCount

/-- The setter `Logger::setErrorCount`. -/
def setErrorCount (g : Logger) (count : CInt) : Logger :=
  if g.m_errorCount = count then
    g
  else
    let g := { g with m_errorCount := count }
    { g with signals := g.signals ++ [Signal.errorCountChanged] }

/-- The setter `Logger::setLogLevel`. -/
def setLogLevel (g : Logger) (level : LogLevel) : Logger :=
  { g with m_logLevel := level }

/-- The handler `Logger::timerEvent`, called by the timer started in the constructor. -/
def timerEvent (g : Logger) : Logger :=
  if g.m_buffer.isEmpty then
    g
  else
    let g := { g with signals := g.signals ++ [Signal.messageArrived g.m_buffer] }
    { g with m_buffer := "" }

/-- The local `text` of `messageOutput`:
`QStringLiteral("[%1] %2").arg(context.category, msg)`.  The two-argument `arg`
substitutes both place markers in one pass. -/
def formatText (category msg : String) : String :=
  "[" ++ category ++ "] " ++ msg

/-- The local `criticalText` of `messageOutput` applied to one argument:
`QStringLiteral("<font color=\"#ff1f00\">%1</font>").arg(text)`. -/
def criticalText (text : String) : String :=
  "<font color=\"#ff1f00\">" ++ text ++ "</font>"

/-- The message handler `Logger::messageOutput`, on the global logger `g`; `category` is
`context.category`. -/
def messageOutput (g : Logger) (type : QtMsgType) (category : String) (msg : String) : Logger :=
  let text := formatText category msg
  -- Writing everything in the file regardless of the log level
  let g := if g.logFileOpen then { g with fileOut := g.fileOut ++ text ++ endl } else g
  let filterNonError := g.m_logLevel == LogLevel.ErrorsOnly && type != QtMsgType.QtCriticalMsg
  let filterDebug := g.m_logLevel == LogLevel.Terse && type == QtMsgType.QtDebugMsg
  if filterNonError || filterDebug then
    g
  else
    let g := { g with stderrOut := g.stderrOut ++ text ++ endl }
    let filterWithoutCategory := category == "default"
    let filterPretty := type == QtMsgType.QtDebugMsg
    if filterWithoutCategory || filterPretty then
      g
    else
      let g := { g with m_buffer :=
        g.m_buffer ++ (if type == QtMsgType.QtCriticalMsg then criticalText text else text) }
      let g := { g with m_buffer := g.m_buffer ++ "<br>" }
      setErrorCount g
        (CInt.add (errorCount g) (if type == QtMsgType.QtCriticalMsg then CInt.one else CInt.zero))

/-! ## The logs directory -/

/-- The comparison of two file names, character by character by their code
(`QString::compare`): whether the first is no greater than the second. -/
def nameLE : List Char → List Char → Bool
  | [], _ => true
  | _ :: _, [] => false
  | a :: as, b :: bs => decide (a.toNat < b.toNat) || (decide (a.toNat = b.toNat) && nameLE as bs)

/-- The order of `QDir::entryInfoList` under `QDir::Time | QDir::Reversed`: `a` is
listed no later than `b`.  Qt sorts with the comparator of `QDirSortItemComparator`:
`r = a.lastModified().msecsTo(b.lastModified())`, falling back to the comparison of
the names when `r == 0`, and with `QDir::Reversed` the entry `a` precedes `b` when
`r > 0`.  So older entries come first and equal times are listed by descending name. -/
def listedBefore (a b : FileInfo) : Prop :=
  a.lastModified < b.lastModified ∨
    (a.lastModified = b.lastModified ∧ nameLE b.fileName.data a.fileName.data = true)

instance : DecidableRel listedBefore := fun a b =>
  inferInstanceAs (Decidable
    (a.lastModified < b.lastModified ∨
      (a.lastModified = b.lastModified ∧ nameLE b.fileName.data a.fileName.data = true)))

/-- The listing `m_logDir.entryInfoList(QDir::Files, QDir::Time | QDir::Reversed)`. -/
def entryInfoList (entries : List FileInfo) : List FileInfo :=
  (entries.filter (fun e => e.isFile)).insertionSort listedBefore

/-- The call `m_logDir.remove(fileName)` on a directory with the given entries.
Whether the file system lets the file go is the oracle `canRemove`; removing a name
that is not in the directory fails. -/
def remove (canRemove : String → Bool) (entries : List FileInfo) (fileName : String) :
    Bool × List FileInfo :=
  if canRemove fileName && entries.any (fun e => e.fileName == fileName) then
    (true, entries.filter (fun e => e.fileName != fileName))
  else
    (false, entries)

/-- The helper `Logger::fallbackMessageOutput`; `CATEGORY_LOGGER` is declared with the
name `"LOGGER"`. -/
def fallbackMessageOutput (g : Logger) (msg : String) : Logger :=
  { g with stderrOut := g.stderrOut ++ "[" ++ "LOGGER" ++ "] " ++ msg ++ endl }

/-- The loop of `Logger::removeOldFiles`: `todo` iterations are left and the loop
variable is `i`.  The loop runs `excessFileCount` times from 0, so `files.at(i)` is always
within the list; the case `none` stands for the index check of `QList::at`. -/
def removeOldFilesLoop (canRemove : String → Bool) (files : List FileInfo) :
    Nat → Nat → Logger → Bool × Logger
  | 0, _, g => (true, g)
  | todo + 1, i, g =>
    match files.get? i with
    | none => (false, g)
    | some fileInfo =>
      match remove canRemove g.dirEntries fileInfo.fileName with
      | (false, _) =>
        (false, fallbackMessageOutput g ("Failed to remove file: " ++ fileInfo.fileName))
      | (true, entries) =>
        removeOldFilesLoop canRemove files todo (i + 1) { g with dirEntries := entries }

/-- The loop of `Logger::removeOldFiles` as one pass over the files it visits. -/
def removeEach (canRemove : String → Bool) : List FileInfo → Logger → Bool × Logger
  | [], g => (true, g)
  | fileInfo :: rest, g =>
    match remove canRemove g.dirEntries fileInfo.fileName with
    | (false, _) =>
      (false, fallbackMessageOutput g ("Failed to remove file: " ++ fileInfo.fileName))
    | (true, entries) => removeEach canRemove rest { g with dirEntries := entries }

/-- The constant `maxFileCount` of `Logger::removeOldFiles`. -/
def maxFileCount : Int := 99

/-- The member function `Logger::removeOldFiles`: the returned flag and the logger
afterwards. -/
def removeOldFiles (canRemove : String → Bool) (g : Logger) : Bool × Logger :=
  let files := entryInfoList g.dirEntries
  let excessFileCount : Int := (files.length : Int) - maxFileCount
  removeOldFilesLoop canRemove files excessFileCount.toNat 0 g

/-- What the constructor of `Logger` takes from its environment. -/
structure Env where
  /-- The value of the build-time macro `APP_NAME`. -/
  appName : String
  /-- The value of `m_logDir.exists(APP_NAME)` after `m_logDir.mkdir(APP_NAME)`. -/
  dirExists : Bool
  /-- The value of `m_logDir.cd(APP_NAME)`. -/
  cdOk : Bool
  /-- The entries of the logs directory when the constructor enters it. -/
  entries : List FileInfo
  /-- Whether the file system lets a file of the logs directory be removed. -/
  canRemove : String → Bool
  /-- The value of `m_startTime.toString("yyyyMMdd-hhmmss")`. -/
  startTime : String
  /-- The value of `m_logFile->open(QIODevice::WriteOnly)`. -/
  openOk : Bool
  /-- The value of `m_logFile->errorString()` when opening failed. -/
  errorString : String
  /-- The modification time the file system gives the file it creates. -/
  now : Int

/-- The effect of a successful `QFile::open(QIODevice::WriteOnly)` on the directory:
the file is created, or truncated when it was there. -/
def openWriteOnly (entries : List FileInfo) (fileName : String) (now : Int) : List FileInfo :=
  entries.filter (fun e => e.fileName != fileName) ++ [{ fileName := fileName, lastModified := now, isFile := true }]

/-- The local `fileName` of the constructor:
`QStringLiteral("%1-%2.log").arg(APP_NAME, m_startTime.toString("yyyyMMdd-hhmmss"))`. -/
def logFileName (env : Env) : String :=
  env.appName ++ "-" ++ env.startTime ++ ".log"

/-- The members after the initialiser list of the constructor: no log file open, the
log level `Default`, the error count 0, an empty buffer.  `dirEntries` is empty until
`m_logDir` has entered the logs directory. -/
def Logger.initial : Logger :=
  { dirEntries := [], logFileOpen := false, fileOut := "", stderrOut := "",
    m_logLevel := LogLevel.Default, m_errorCount := CInt.zero, m_buffer := "",
    timerStarted := false, signals := [] }

/-- The constructor `Logger::Logger`. -/
def Logger.new (env : Env) : Logger :=
  let g : Logger := Logger.initial
  if !env.dirExists then
    fallbackMessageOutput g "Failed to create logs directory"
  else if !env.cdOk then
    fallbackMessageOutput g "Failed to access logs directory"
  else
    let g := { g with dirEntries := env.entries }
    match removeOldFiles env.canRemove g with
    | (false, g) => fallbackMessageOutput g "Failed to remove old files"
    | (true, g) =>
      let fileName := logFileName env
      let g :=
        if !env.openOk then
          fallbackMessageOutput g ("Failed to open log file: " ++ env.errorString)
        else
          { g with logFileOpen := true, dirEntries := openWriteOnly g.dirEntries fileName env.now }
      { g with timerStarted := true }

/-- The number of regular files in a directory. -/
def regularFileCount (entries : List FileInfo) : Nat :=
  (entries.filter (fun e => e.isFile)).length

/-! ## Runs of the sink -/

/-- A message as the host hands it to `messageOutput`. -/
structure Message where
  /-- The severity, the argument `type`. -/
  type : QtMsgType
  /-- The category, `context.category`. -/
  category : String
  /-- The text, the argument `msg`. -/
  msg : String
deriving DecidableEq, Repr

/-- One call into the sink after its construction. -/
inductive Op where
  /-- A call of `messageOutput`. -/
  | message (m : Message)
  /-- A call of `setLogLevel`. -/
  | logLevel (level : LogLevel)
  /-- A call of `setErrorCount`. -/
  | errorCount (count : CInt)
  /-- A call of `timerEvent`. -/
  | timer

/-- The logger after one call. -/
def step (g : Logger) : Op → Logger
  | Op.message m => messageOutput g m.type m.category m.msg
  | Op.logLevel level => setLogLevel g level
  | Op.errorCount count => setErrorCount g count
  | Op.timer => timerEvent g

/-- The logger after a sequence of calls. -/
def run (g : Logger) (ops : List Op) : Logger :=
  ops.foldl step g

/-- The messages among a sequence of calls, in order. -/
def messagesOf : List Op → List Message
  | [] => []
  | Op.message m :: ops => m :: messagesOf ops
  | _ :: ops => messagesOf ops

/-- The entry of a message in the pending buffer: the formatted text, inside the
critical marker when the severity is critical, followed by the line break. -/
def bufferEntry (m : Message) : String :=
  (if m.type = QtMsgType.QtCriticalMsg then criticalText (formatText m.category m.msg)
    else formatText m.category m.msg) ++ "<br>"

/-- The concatenation of the entries of a list of messages. -/
def entriesOf : List Message → String
  | [] => ""
  | m :: ms => bufferEntry m ++ entriesOf ms

/-- Whether a message is kept from standard error at a log level. -/
def stderrSuppressed (level : LogLevel) (type : QtMsgType) : Prop :=
  (level = LogLevel.ErrorsOnly ∧ type ≠ QtMsgType.QtCriticalMsg) ∨
    (level = LogLevel.Terse ∧ type = QtMsgType.QtDebugMsg)

instance (level : LogLevel) (type : QtMsgType) : Decidable (stderrSuppressed level type) :=
  inferInstanceAs (Decidable ((level = LogLevel.ErrorsOnly ∧ type ≠ QtMsgType.QtCriticalMsg) ∨
    (level = LogLevel.Terse ∧ type = QtMsgType.QtDebugMsg)))

/-- The text a call adds to the pending buffer, as observed on `messageOutput`. -/
def appendedBy (g : Logger) : Op → String
  | Op.message m =>
    if stderrSuppressed g.m_logLevel m.type ∨ m.category = "default" ∨ m.type = QtMsgType.QtDebugMsg
    then "" else bufferEntry m
  | _ => ""

/-- All the text a sequence of calls adds to the pending buffer. -/
def appendedAll (g : Logger) : List Op → String
  | [] => ""
  | op :: ops => appendedBy g op ++ appendedAll (step g op) ops

/-- The concatenation of the batches delivered through `messageArrived`. -/
def delivered : List Signal → String
  | [] => ""
  | Signal.messageArrived text :: ss => text ++ delivered ss
  | Signal.errorCountChanged :: ss => delivered ss

/-- The list of messages `ms` is taken, in order, from the messages `sent`, each of them
has a category other than `"default"` and a severity other than debug, and `text` is
the concatenation of their entries. -/
def MadeOf (sent : List Message) (text : String) : Prop :=
  ∃ ms : List Message, ms.Sublist sent ∧
    (∀ m ∈ ms, m.category ≠ "default" ∧ m.type ≠ QtMsgType.QtDebugMsg) ∧ text = entriesOf ms

/-- The invariant of the pending buffer and of the batches delivered so far, given the
messages sent so far. -/
def BufferInv (sent : List Message) (g : Logger) : Prop :=
  MadeOf sent g.m_buffer ∧ ∀ batch, Signal.messageArrived batch ∈ g.signals → MadeOf sent batch

/-! ## Sample inputs -/

/-- An environment in which the logs directory is empty and everything succeeds. -/
def sampleEnv : Env :=
  { appName := "qFlipper", dirExists := true, cdOk := true, entries := [],
    canRemove := fun _ => true, startTime := "20240101-120000", openOk := true,
    errorString := "", now := 1000 }

/-- The logger right after its construction in `sampleEnv`. -/
def sampleLogger : Logger := Logger.new sampleEnv

/-- A logs directory holding `n` log files of earlier runs, the oldest first. -/
def oldLogs (n : Nat) : List FileInfo :=
  (List.range n).map
    (fun i => { fileName := "old-" ++ toString i ++ ".log", lastModified := i, isFile := true })

/-- An environment whose logs directory holds 99 log files and in which everything
succeeds. -/
def env99 : Env :=
  { appName := "qFlipper", dirExists := true, cdOk := true, entries := oldLogs 99,
    canRemove := fun _ => true, startTime := "20240101-120000", openOk := true,
    errorString := "", now := 1000 }

/-- A logger that has entered a logs directory of 101 log files. -/
def crowdedLogger : Logger := { Logger.initial with dirEntries := oldLogs 101 }

/-- A file system that lets go every file but `old-100.log`, the newest of
`crowdedLogger`. -/
def keepNewest : String → Bool := fun fileName => fileName != "old-100.log"

/-- A logger that has entered a logs directory of 3 log files. -/
def quietLogger : Logger := { Logger.initial with dirEntries := oldLogs 3 }

/-- A run: a critical message without category, a warning about USB, a timer event and
a debug message. -/
def sampleOps : List Op :=
  [Op.message { type := QtMsgType.QtCriticalMsg, category := "default", msg := "disk full" },
   Op.message { type := QtMsgType.QtWarningMsg, category := "usb", msg := "unplugged" },
   Op.timer,
   Op.message { type := QtMsgType.QtDebugMsg, category := "usb", msg := "polling" }]

/-- The greatest `int` as an error count. -/
def CInt.max : CInt := ⟨2147483647, by decide⟩

/-! ## Strings -/

theorem append_ne_self (s t : String) (h : t ≠ "") : s ++ t ≠ s := by
  intro e
  apply h
  have := congrArg String.data e
  simp only [String.data_append, List.append_right_eq_self] at this
  exact String.ext this

/-! ## `messageOutput` -/

/-- The file output of `messageOutput`. -/
theorem messageOutput_fileOut (g : Logger) (type : QtMsgType) (category msg : String) :
    (messageOutput g type category msg).fileOut =
      if g.logFileOpen then g.fileOut ++ formatText category msg ++ endl else g.fileOut := by
  unfold messageOutput setErrorCount errorCount
  by_cases hf : g.logFileOpen = true <;> simp only [hf] <;> (repeat' split) <;> simp

/-- The standard-error output of `messageOutput`. -/
theorem messageOutput_stderrOut (g : Logger) (type : QtMsgType) (category msg : String) :
    (messageOutput g type category msg).stderrOut =
      if stderrSuppressed g.m_logLevel type then g.stderrOut
      else g.stderrOut ++ formatText category msg ++ endl := by
  unfold messageOutput setErrorCount errorCount stderrSuppressed
  cases hl : g.m_logLevel <;> cases type <;>
    by_cases hf : g.logFileOpen = true <;> simp [hf, hl] <;> (repeat' split) <;> simp

/-- The pending buffer after `messageOutput`. -/
theorem messageOutput_buffer (g : Logger) (m : Message) :
    (messageOutput g m.type m.category m.msg).m_buffer =
      g.m_buffer ++ appendedBy g (Op.message m) := by
  unfold messageOutput setErrorCount errorCount appendedBy stderrSuppressed bufferEntry
  obtain ⟨type, category, msg⟩ := m
  by_cases hc : category = "default" <;>
  cases hl : g.m_logLevel <;> cases type <;>
    by_cases hf : g.logFileOpen = true <;> simp [hf, hl, hc, String.append_assoc] <;>
    (repeat' split) <;> simp [String.append_assoc]

theorem wrapInt_of_range {x : Int} (h₁ : INT_MIN ≤ x) (h₂ : x ≤ INT_MAX) : wrapInt x = x := by
  unfold wrapInt
  unfold INT_MIN INT_MAX at *
  omega

theorem CInt.add_zero (c : CInt) : CInt.add c CInt.zero = c := by
  apply Subtype.ext
  show wrapInt (c.val + 0) = c.val
  rw [Int.add_zero]
  exact wrapInt_of_range c.property.1 c.property.2

theorem CInt.add_one_val (c : CInt) (h : c.val < INT_MAX) : (CInt.add c CInt.one).val = c.val + 1 := by
  show wrapInt (c.val + 1) = c.val + 1
  have := c.property.1
  apply wrapInt_of_range <;> omega

theorem CInt.add_one_ne (c : CInt) : CInt.add c CInt.one ≠ c := by
  intro e
  have h : wrapInt (c.val + 1) = c.val := congrArg Subtype.val e
  unfold wrapInt INT_MIN at h
  omega

theorem CInt.ne_add_one (c : CInt) : c ≠ CInt.add c CInt.one :=
  fun e => CInt.add_one_ne c e.symm

/-- The error counter after `messageOutput`. -/
theorem messageOutput_errorCount (g : Logger) (type : QtMsgType) (category msg : String) :
    (messageOutput g type category msg).m_errorCount =
      if type = QtMsgType.QtCriticalMsg ∧ category ≠ "default" then CInt.add g.m_errorCount CInt.one
      else g.m_errorCount := by
  unfold messageOutput setErrorCount errorCount
  by_cases hc : category = "default" <;>
  cases hl : g.m_logLevel <;> cases type <;>
    by_cases hf : g.logFileOpen = true <;> simp [hf, hl, hc, CInt.add_zero, CInt.ne_add_one]

/-- The signals after `messageOutput`. -/
theorem messageOutput_signals (g : Logger) (type : QtMsgType) (category msg : String) :
    (messageOutput g type category msg).signals =
      if type = QtMsgType.QtCriticalMsg ∧ category ≠ "default"
      then g.signals ++ [Signal.errorCountChanged] else g.signals := by
  unfold messageOutput setErrorCount errorCount
  by_cases hc : category = "default" <;>
  cases hl : g.m_logLevel <;> cases type <;>
    by_cases hf : g.logFileOpen = true <;>
    simp [hf, hl, hc, CInt.add_zero, CInt.ne_add_one]

/-- The members `messageOutput` never touches. -/
theorem messageOutput_frame (g : Logger) (type : QtMsgType) (category msg : String) :
    (messageOutput g type category msg).m_logLevel = g.m_logLevel ∧
    (messageOutput g type category msg).logFileOpen = g.logFileOpen ∧
    (messageOutput g type category msg).dirEntries = g.dirEntries ∧
    (messageOutput g type category msg).timerStarted = g.timerStarted := by
  unfold messageOutput setErrorCount errorCount
  by_cases hc : category = "default" <;>
  cases hl : g.m_logLevel <;> cases type <;>
    by_cases hf : g.logFileOpen = true <;> simp [hf, hl, hc, CInt.add_zero, CInt.ne_add_one]

/-! ## Claims about `messageOutput`, `setErrorCount` and `timerEvent` -/

/-- C1: when the log file is open, `messageOutput` appends the line
`"[" + category + "] " + text` and its terminator to the file, once, for every message,
every log level and every state of the sink, also when the message reaches neither
standard error nor the pending buffer; when the file is not open the file output is
unchanged. -/
theorem messageOutput_writes_file (g : Logger) (level : LogLevel) (type : QtMsgType)
    (category text : String) :
    (g.logFileOpen = true →
      (messageOutput (setLogLevel g level) type category text).fileOut =
        g.fileOut ++ ("[" ++ category ++ "] " ++ text) ++ "\n") ∧
    (g.logFileOpen = false →
      (messageOutput (setLogLevel g level) type category text).fileOut = g.fileOut) := by
  rw [messageOutput_fileOut]
  constructor <;> intro h <;> simp [setLogLevel, h, formatText, endl]

/-- Witness of C1: under `ErrorsOnly` a debug message of the default category, which
reaches neither standard error nor the pending buffer, is written to the open file; on
a logger whose file is not open a message leaves the file output alone. -/
theorem messageOutput_writes_file_witness :
    sampleLogger.logFileOpen = true ∧
    (messageOutput (setLogLevel sampleLogger LogLevel.ErrorsOnly) QtMsgType.QtDebugMsg
        "default" "tick").fileOut = sampleLogger.fileOut ++ ("[" ++ "default" ++ "] " ++ "tick") ++ "\n" ∧
    (messageOutput (setLogLevel sampleLogger LogLevel.ErrorsOnly) QtMsgType.QtDebugMsg
        "default" "tick").stderrOut = "" ∧
    (messageOutput (setLogLevel sampleLogger LogLevel.ErrorsOnly) QtMsgType.QtDebugMsg
        "default" "tick").m_buffer = "" ∧
    Logger.initial.logFileOpen = false ∧
    (messageOutput (setLogLevel Logger.initial LogLevel.Default) QtMsgType.QtCriticalMsg
        "net" "conn failed").fileOut = Logger.initial.fileOut :=
  ⟨by decide,
   (messageOutput_writes_file sampleLogger LogLevel.ErrorsOnly QtMsgType.QtDebugMsg
      "default" "tick").1 (by decide),
   by decide, by decide, by decide,
   (messageOutput_writes_file Logger.initial LogLevel.Default QtMsgType.QtCriticalMsg
      "net" "conn failed").2 (by decide)⟩

/-- C2: `messageOutput` writes the line `"[category] text"` to standard error, once,
exactly when it is not the case that the log level is `ErrorsOnly` and the severity is
not critical, or the log level is `Terse` and the severity is debug; otherwise standard
error is left unchanged.  So under `ErrorsOnly` no message other than a critical one
reaches standard error, and under `Terse` every message other than a debug one does. -/
theorem stderr_mirror_filter (g : Logger) (type : QtMsgType) (category text : String) :
    ((messageOutput g type category text).stderrOut =
        g.stderrOut ++ ("[" ++ category ++ "] " ++ text) ++ "\n" ↔
      ¬ ((g.m_logLevel = LogLevel.ErrorsOnly ∧ type ≠ QtMsgType.QtCriticalMsg) ∨
         (g.m_logLevel = LogLevel.Terse ∧ type = QtMsgType.QtDebugMsg))) ∧
    (((g.m_logLevel = LogLevel.ErrorsOnly ∧ type ≠ QtMsgType.QtCriticalMsg) ∨
         (g.m_logLevel = LogLevel.Terse ∧ type = QtMsgType.QtDebugMsg)) →
      (messageOutput g type category text).stderrOut = g.stderrOut) ∧
    (g.m_logLevel = LogLevel.ErrorsOnly → type ≠ QtMsgType.QtCriticalMsg →
      (messageOutput g type category text).stderrOut = g.stderrOut) ∧
    (g.m_logLevel = LogLevel.Terse → type ≠ QtMsgType.QtDebugMsg →
      (messageOutput g type category text).stderrOut =
        g.stderrOut ++ ("[" ++ category ++ "] " ++ text) ++ "\n") := by
  have hne : g.stderrOut ++ ("[" ++ category ++ "] " ++ text) ++ "\n" ≠ g.stderrOut := by
    rw [String.append_assoc]
    apply append_ne_self
    intro e
    have := congrArg String.length e
    simp only [String.length_append] at this
    have h1 : "\n".length = 1 := by decide
    have h0 : "".length = 0 := by decide
    omega
  rw [messageOutput_stderrOut]
  unfold stderrSuppressed formatText endl
  refine ⟨?_, ?_, ?_, ?_⟩
  · constructor
    · intro h hs
      rw [if_pos hs] at h
      exact hne h.symm
    · intro hs
      rw [if_neg hs]
  · intro hs
    rw [if_pos hs]
  · intro hl ht
    rw [if_pos (Or.inl ⟨hl, ht⟩)]
  · intro hl ht
    rw [if_neg]
    rintro (⟨h, _⟩ | ⟨_, h⟩)
    · rw [hl] at h
      cases h
    · exact ht h

/-- Witness of C2: a warning under `ErrorsOnly` leaves standard error alone, a warning
under `Terse` is written to it. -/
theorem stderr_mirror_filter_witness :
    (messageOutput (setLogLevel sampleLogger LogLevel.Terse) QtMsgType.QtDebugMsg
        "usb" "polling").stderrOut = (setLogLevel sampleLogger LogLevel.Terse).stderrOut ∧
    (messageOutput (setLogLevel sampleLogger LogLevel.ErrorsOnly) QtMsgType.QtWarningMsg
        "usb" "unplugged").stderrOut = (setLogLevel sampleLogger LogLevel.ErrorsOnly).stderrOut ∧
    (messageOutput (setLogLevel sampleLogger LogLevel.Terse) QtMsgType.QtWarningMsg
        "usb" "unplugged").stderrOut =
      (setLogLevel sampleLogger LogLevel.Terse).stderrOut ++ ("[" ++ "usb" ++ "] " ++ "unplugged") ++ "\n" :=
  ⟨(stderr_mirror_filter (setLogLevel sampleLogger LogLevel.Terse) QtMsgType.QtDebugMsg
      "usb" "polling").2.1 (by decide),
   (stderr_mirror_filter (setLogLevel sampleLogger LogLevel.ErrorsOnly) QtMsgType.QtWarningMsg
      "usb" "unplugged").2.2.1 (by decide) (by decide),
   (stderr_mirror_filter (setLogLevel sampleLogger LogLevel.Terse) QtMsgType.QtWarningMsg
      "usb" "unplugged").2.2.2 (by decide) (by decide)⟩

/-- C7: a message that is kept neither from standard error nor from the pending buffer
(category other than `"default"`, severity other than debug, not filtered by the log
level) turns the pending buffer into the old buffer, the entry and `"<br>"`, where the
entry is the line `"[category] text"`, inside `<font color="#ff1f00">` and `</font>` when
the severity is critical; when the severity is not critical the error counter is
unchanged.  From the state after construction the critical message `"conn failed"` of
category `"net"` gives the buffer `<font color="#ff1f00">[net] conn failed</font><br>`,
the line `[net] conn failed` in the file and on standard error, the error count 1, and
the next timer event delivers that buffer as one batch. -/
theorem messageOutput_appends_entry :
    (∀ (g : Logger) (type : QtMsgType) (category text : String),
      category ≠ "default" → type ≠ QtMsgType.QtDebugMsg →
      ¬ ((g.m_logLevel = LogLevel.ErrorsOnly ∧ type ≠ QtMsgType.QtCriticalMsg) ∨
         (g.m_logLevel = LogLevel.Terse ∧ type = QtMsgType.QtDebugMsg)) →
      (messageOutput g type category text).m_buffer =
          g.m_buffer ++
            (if type = QtMsgType.QtCriticalMsg
              then "<font color=\"#ff1f00\">" ++ ("[" ++ category ++ "] " ++ text) ++ "</font>"
              else "[" ++ category ++ "] " ++ text) ++ "<br>" ∧
      (type ≠ QtMsgType.QtCriticalMsg →
        (messageOutput g type category text).m_errorCount = g.m_errorCount)) ∧
    (messageOutput sampleLogger QtMsgType.QtCriticalMsg "net" "conn failed").m_buffer =
      "<font color=\"#ff1f00\">[net] conn failed</font><br>" ∧
    (messageOutput sampleLogger QtMsgType.QtCriticalMsg "net" "conn failed").fileOut =
      "[net] conn failed\n" ∧
    (messageOutput sampleLogger QtMsgType.QtCriticalMsg "net" "conn failed").stderrOut =
      "[net] conn failed\n" ∧
    (messageOutput sampleLogger QtMsgType.QtCriticalMsg "net" "conn failed").m_errorCount.val = 1 ∧
    (timerEvent (messageOutput sampleLogger QtMsgType.QtCriticalMsg "net" "conn failed")).signals =
      [Signal.errorCountChanged,
       Signal.messageArrived "<font color=\"#ff1f00\">[net] conn failed</font><br>"] := by
  refine ⟨?_, by decide, by decide, by decide, by decide, by decide⟩
  intro g type category text hc hd hs
  constructor
  · have h := messageOutput_buffer g ⟨type, category, text⟩
    simp only at h
    have hcond : ¬ (stderrSuppressed g.m_logLevel type ∨ category = "default" ∨
        type = QtMsgType.QtDebugMsg) := by
      rintro (h | h | h)
      · exact hs h
      · exact hc h
      · exact hd h
    rw [h]
    show g.m_buffer ++ (if _ then "" else bufferEntry _) = _
    rw [if_neg hcond]
    unfold bufferEntry criticalText formatText
    by_cases ht : type = QtMsgType.QtCriticalMsg <;> simp [ht, String.append_assoc]
  · intro ht
    rw [messageOutput_errorCount, if_neg]
    exact fun h => ht h.1

/-- Witness of C7: a warning of category `"usb"` under the log level `Terse`. -/
theorem messageOutput_appends_entry_witness :
    (messageOutput (setLogLevel sampleLogger LogLevel.Terse) QtMsgType.QtWarningMsg
        "usb" "unplugged").m_buffer =
      (setLogLevel sampleLogger LogLevel.Terse).m_buffer ++
        (if QtMsgType.QtWarningMsg = QtMsgType.QtCriticalMsg
          then "<font color=\"#ff1f00\">" ++ ("[" ++ "usb" ++ "] " ++ "unplugged") ++ "</font>"
          else "[" ++ "usb" ++ "] " ++ "unplugged") ++ "<br>" ∧
    (QtMsgType.QtWarningMsg ≠ QtMsgType.QtCriticalMsg →
      (messageOutput (setLogLevel sampleLogger LogLevel.Terse) QtMsgType.QtWarningMsg
        "usb" "unplugged").m_errorCount = (setLogLevel sampleLogger LogLevel.Terse).m_errorCount) :=
  messageOutput_appends_entry.1 (setLogLevel sampleLogger LogLevel.Terse) QtMsgType.QtWarningMsg
    "usb" "unplugged" (by decide) (by decide) (by decide)

/-- C10: after `setErrorCount c` the error count is `c`; `errorCountChanged` is emitted,
once, exactly when `c` differs from the count before the call, and setting the counter
to its current value changes nothing at all.  The log level, the pending buffer, the
file, standard error and the other members are never changed. -/
theorem setErrorCount_spec (g : Logger) (c : CInt) :
    (setErrorCount g c).m_errorCount = c ∧
    ((setErrorCount g c).signals = g.signals ++ [Signal.errorCountChanged] ↔ c ≠ g.m_errorCount) ∧
    ((setErrorCount g c).signals = g.signals ↔ c = g.m_errorCount) ∧
    (c = g.m_errorCount → setErrorCount g c = g) ∧
    (setErrorCount g c).m_logLevel = g.m_logLevel ∧
    (setErrorCount g c).m_buffer = g.m_buffer ∧
    (setErrorCount g c).fileOut = g.fileOut ∧
    (setErrorCount g c).stderrOut = g.stderrOut ∧
    (setErrorCount g c).logFileOpen = g.logFileOpen ∧
    (setErrorCount g c).dirEntries = g.dirEntries ∧
    (setErrorCount g c).timerStarted = g.timerStarted := by
  unfold setErrorCount
  by_cases h : g.m_errorCount = c
  · simp [h]
  · have h2 : ¬ c = g.m_errorCount := fun e => h e.symm
    simp [h, h2]

/-- Witness of C10: setting the count of a fresh logger to its current value `0`. -/
theorem setErrorCount_spec_witness : setErrorCount sampleLogger CInt.zero = sampleLogger :=
  (setErrorCount_spec sampleLogger CInt.zero).2.2.2.1 (by decide)

/-! ## Delivery of the pending buffer -/

theorem delivered_append (a b : List Signal) : delivered (a ++ b) = delivered a ++ delivered b := by
  induction a with
  | nil => simp [delivered]
  | cons x xs ih =>
    cases x <;> simp [delivered, ih, String.append_assoc]

theorem timerEvent_of_empty (g : Logger) (h : g.m_buffer = "") : timerEvent g = g := by
  unfold timerEvent
  rw [if_pos ((String.isEmpty_iff _).2 h)]

theorem timerEvent_of_nonempty (g : Logger) (h : g.m_buffer ≠ "") :
    timerEvent g =
      { g with signals := g.signals ++ [Signal.messageArrived g.m_buffer], m_buffer := "" } := by
  unfold timerEvent
  rw [if_neg (fun e => h ((String.isEmpty_iff _).1 e))]

/-- One call keeps the delivered text and the pending buffer together, up to what the
call appends. -/
theorem step_conserves (g : Logger) (op : Op) :
    delivered (step g op).signals ++ (step g op).m_buffer =
      delivered g.signals ++ g.m_buffer ++ appendedBy g op := by
  cases op with
  | message m =>
    show delivered (messageOutput g m.type m.category m.msg).signals ++
      (messageOutput g m.type m.category m.msg).m_buffer = _
    rw [messageOutput_buffer, messageOutput_signals]
    split <;> simp [delivered_append, delivered, String.append_assoc]
  | logLevel level => simp [step, setLogLevel, appendedBy]
  | errorCount count =>
    simp only [step, setErrorCount, appendedBy]
    split <;> simp [delivered_append, delivered]
  | timer =>
    simp only [step, appendedBy, String.append_empty]
    by_cases h : g.m_buffer = ""
    · rw [timerEvent_of_empty g h]
    · rw [timerEvent_of_nonempty g h]
      simp [delivered_append, delivered]

theorem run_conserves (ops : List Op) : ∀ g : Logger,
    delivered (run g ops).signals ++ (run g ops).m_buffer =
      delivered g.signals ++ g.m_buffer ++ appendedAll g ops := by
  induction ops with
  | nil => intro g; simp [run, appendedAll]
  | cons op ops ih =>
    intro g
    have h := ih (step g op)
    simp only [run, List.foldl_cons, appendedAll] at h ⊢
    rw [h, step_conserves]
    simp only [String.append_assoc]

/-- C8: with a pending buffer that is not empty, `timerEvent` emits one `messageArrived`
whose payload is the whole buffer and leaves the buffer empty; with an empty buffer it
emits nothing and changes nothing.  The log level, the error count, the file output and
the standard-error output are unchanged either way.  So the delivered batches followed
by the pending buffer stay the same text across a timer event, and after any sequence of
calls they are the text before it followed by all the entries the calls appended. -/
theorem timerEvent_flushes (g : Logger) :
    (g.m_buffer ≠ "" →
      (timerEvent g).signals = g.signals ++ [Signal.messageArrived g.m_buffer] ∧
      (timerEvent g).m_buffer = "") ∧
    (g.m_buffer = "" → timerEvent g = g) ∧
    (timerEvent g).m_logLevel = g.m_logLevel ∧
    (timerEvent g).m_errorCount = g.m_errorCount ∧
    (timerEvent g).fileOut = g.fileOut ∧
    (timerEvent g).stderrOut = g.stderrOut ∧
    delivered (timerEvent g).signals ++ (timerEvent g).m_buffer =
      delivered g.signals ++ g.m_buffer ∧
    (∀ ops : List Op, delivered (run g ops).signals ++ (run g ops).m_buffer =
      delivered g.signals ++ g.m_buffer ++ appendedAll g ops) := by
  refine ⟨?_, timerEvent_of_empty g, ?_, ?_, ?_, ?_, ?_, fun ops => run_conserves ops g⟩
  · intro h
    rw [timerEvent_of_nonempty g h]
    exact ⟨rfl, rfl⟩
  all_goals
    by_cases h : g.m_buffer = ""
    · rw [timerEvent_of_empty g h]
    · rw [timerEvent_of_nonempty g h]
      try simp [delivered_append, delivered]

/-- Witness of C8: the timer event after a warning has been buffered, and the timer
event on the fresh logger, whose buffer is empty. -/
theorem timerEvent_flushes_witness :
    ((timerEvent (messageOutput sampleLogger QtMsgType.QtWarningMsg "usb" "unplugged")).signals =
        (messageOutput sampleLogger QtMsgType.QtWarningMsg "usb" "unplugged").signals ++
          [Signal.messageArrived
            (messageOutput sampleLogger QtMsgType.QtWarningMsg "usb" "unplugged").m_buffer] ∧
      (timerEvent (messageOutput sampleLogger QtMsgType.QtWarningMsg "usb" "unplugged")).m_buffer
        = "") ∧
    timerEvent sampleLogger = sampleLogger :=
  ⟨(timerEvent_flushes (messageOutput sampleLogger QtMsgType.QtWarningMsg "usb" "unplugged")).1
      (by decide),
   (timerEvent_flushes sampleLogger).2.1 (by decide)⟩

/-! ## The error counter -/

/-- C5, as stated, fails: a critical message of the category `"default"` leaves the
error counter of a fresh logger at 0 and emits no signal; and when the counter holds the
greatest `int` (after `setErrorCount`), no critical message can raise it by one. -/
theorem messageOutput_critical_not_counted :
    (messageOutput sampleLogger QtMsgType.QtCriticalMsg "default" "disk full").m_errorCount.val = 0 ∧
    sampleLogger.m_errorCount.val = 0 ∧
    (messageOutput sampleLogger QtMsgType.QtCriticalMsg "default" "disk full").signals = [] ∧
    sampleLogger.signals = [] ∧
    (messageOutput (setErrorCount sampleLogger CInt.max) QtMsgType.QtCriticalMsg
        "net" "conn failed").m_errorCount.val ≠
      (setErrorCount sampleLogger CInt.max).m_errorCount.val + 1 := by
  decide

/-- C5, amended: a critical message whose category is not `"default"`, arriving when the
error counter is below the greatest `int`, raises the counter by exactly 1 and emits
`errorCountChanged` exactly once, at every log level; a critical message of the category
`"default"` leaves the counter alone and emits nothing. -/
theorem messageOutput_critical_counts (g : Logger) (category text : String) :
    (category ≠ "default" → g.m_errorCount.val < INT_MAX →
      (messageOutput g QtMsgType.QtCriticalMsg category text).m_errorCount.val =
        g.m_errorCount.val + 1 ∧
      (messageOutput g QtMsgType.QtCriticalMsg category text).signals =
        g.signals ++ [Signal.errorCountChanged]) ∧
    (category = "default" →
      (messageOutput g QtMsgType.QtCriticalMsg category text).m_errorCount = g.m_errorCount ∧
      (messageOutput g QtMsgType.QtCriticalMsg category text).signals = g.signals) := by
  rw [messageOutput_errorCount, messageOutput_signals]
  constructor
  · intro hc hlt
    rw [if_pos ⟨rfl, hc⟩, if_pos ⟨rfl, hc⟩]
    exact ⟨CInt.add_one_val _ hlt, rfl⟩
  · intro hc
    rw [if_neg (fun h => h.2 hc), if_neg (fun h => h.2 hc)]
    exact ⟨rfl, rfl⟩

/-- Witness of C5, amended: a critical message of category `"net"` under `ErrorsOnly`,
and one of the category `"default"`. -/
theorem messageOutput_critical_counts_witness :
    ((messageOutput (setLogLevel sampleLogger LogLevel.ErrorsOnly) QtMsgType.QtCriticalMsg
        "net" "conn failed").m_errorCount.val =
        (setLogLevel sampleLogger LogLevel.ErrorsOnly).m_errorCount.val + 1 ∧
      (messageOutput (setLogLevel sampleLogger LogLevel.ErrorsOnly) QtMsgType.QtCriticalMsg
        "net" "conn failed").signals =
        (setLogLevel sampleLogger LogLevel.ErrorsOnly).signals ++ [Signal.errorCountChanged]) ∧
    ((messageOutput sampleLogger QtMsgType.QtCriticalMsg "default" "disk full").m_errorCount =
        sampleLogger.m_errorCount ∧
      (messageOutput sampleLogger QtMsgType.QtCriticalMsg "default" "disk full").signals =
        sampleLogger.signals) :=
  ⟨(messageOutput_critical_counts (setLogLevel sampleLogger LogLevel.ErrorsOnly)
      "net" "conn failed").1 (by decide) (by decide),
   (messageOutput_critical_counts sampleLogger "default" "disk full").2 rfl⟩

/-! ## The log level -/

/-- C4, as stated, fails: on two fresh loggers that differ only in their log level, a
warning of category `"net"` is appended to the pending buffer under `Default` and is not
under `ErrorsOnly`. -/
theorem logLevel_changes_buffer :
    (messageOutput (setLogLevel sampleLogger LogLevel.Default) QtMsgType.QtWarningMsg
        "net" "slow").m_buffer = "[net] slow<br>" ∧
    (messageOutput (setLogLevel sampleLogger LogLevel.ErrorsOnly) QtMsgType.QtWarningMsg
        "net" "slow").m_buffer = "" ∧
    (messageOutput (setLogLevel sampleLogger LogLevel.Default) QtMsgType.QtWarningMsg
        "net" "slow").m_buffer ≠
      (messageOutput (setLogLevel sampleLogger LogLevel.ErrorsOnly) QtMsgType.QtWarningMsg
        "net" "slow").m_buffer := by
  decide

theorem bufferEntry_ne_empty (m : Message) : bufferEntry m ≠ "" := by
  intro e
  have h := congrArg String.length e
  unfold bufferEntry at h
  rw [String.length_append] at h
  have h1 : "<br>".length = 4 := by decide
  have h0 : "".length = 0 := by decide
  omega

/-- C4, amended: in two states of the sink that differ only in their log level,
`messageOutput` produces the same file output, the same error count and the same
signals.  It produces the same pending buffer too, except when exactly one of the two
levels is `ErrorsOnly` and the message is neither critical nor debug and has a category
other than `"default"`: such a message is buffered under `Default` and `Terse` and not
under `ErrorsOnly`. -/
theorem logLevel_independence (g : Logger) (l₁ l₂ : LogLevel) (type : QtMsgType)
    (category text : String) :
    (messageOutput (setLogLevel g l₁) type category text).fileOut =
      (messageOutput (setLogLevel g l₂) type category text).fileOut ∧
    (messageOutput (setLogLevel g l₁) type category text).m_errorCount =
      (messageOutput (setLogLevel g l₂) type category text).m_errorCount ∧
    (messageOutput (setLogLevel g l₁) type category text).signals =
      (messageOutput (setLogLevel g l₂) type category text).signals ∧
    ((messageOutput (setLogLevel g l₁) type category text).m_buffer =
        (messageOutput (setLogLevel g l₂) type category text).m_buffer ↔
      ¬ (((l₁ = LogLevel.ErrorsOnly ∧ l₂ ≠ LogLevel.ErrorsOnly) ∨
          (l₁ ≠ LogLevel.ErrorsOnly ∧ l₂ = LogLevel.ErrorsOnly)) ∧
        type ≠ QtMsgType.QtCriticalMsg ∧ type ≠ QtMsgType.QtDebugMsg ∧
        category ≠ "default")) := by
  refine ⟨?_, ?_, ?_, ?_⟩
  · rw [messageOutput_fileOut, messageOutput_fileOut]
    rfl
  · rw [messageOutput_errorCount, messageOutput_errorCount]
    rfl
  · rw [messageOutput_signals, messageOutput_signals]
    rfl
  · have h₁ := messageOutput_buffer (setLogLevel g l₁) ⟨type, category, text⟩
    have h₂ := messageOutput_buffer (setLogLevel g l₂) ⟨type, category, text⟩
    simp only at h₁ h₂
    rw [h₁, h₂]
    have hne := bufferEntry_ne_empty ⟨type, category, text⟩
    have hne' : "" ≠ bufferEntry ⟨type, category, text⟩ := fun e => hne e.symm
    by_cases hc : category = "default" <;>
    cases l₁ <;> cases l₂ <;> cases type <;>
      simp [appendedBy, setLogLevel, stderrSuppressed, hc, hne, hne', append_ne_self,
        Ne.symm (append_ne_self _ _ hne)]

/-! ## The invariant of the pending buffer -/

theorem entriesOf_append (a b : List Message) : entriesOf (a ++ b) = entriesOf a ++ entriesOf b := by
  induction a with
  | nil => simp [entriesOf]
  | cons x xs ih => simp [entriesOf, ih, String.append_assoc]

theorem MadeOf.mono {sent : List Message} {text : String} (h : MadeOf sent text)
    (more : List Message) : MadeOf (sent ++ more) text := by
  obtain ⟨ms, hsub, hgood, htext⟩ := h
  exact ⟨ms, hsub.trans (List.sublist_append_left sent more), hgood, htext⟩

theorem MadeOf.snoc {sent : List Message} {text : String} (h : MadeOf sent text) (m : Message)
    (hc : m.category ≠ "default") (hd : m.type ≠ QtMsgType.QtDebugMsg) :
    MadeOf (sent ++ [m]) (text ++ bufferEntry m) := by
  obtain ⟨ms, hsub, hgood, htext⟩ := h
  refine ⟨ms ++ [m], List.Sublist.append hsub (List.Sublist.refl _), ?_, ?_⟩
  · intro x hx
    rcases List.mem_append.1 hx with hx | hx
    · exact hgood x hx
    · rw [List.mem_singleton.1 hx]
      exact ⟨hc, hd⟩
  · rw [entriesOf_append, htext]
    simp [entriesOf]

theorem MadeOf.empty (sent : List Message) : MadeOf sent "" :=
  ⟨[], List.nil_sublist _, fun _ h => absurd h (List.not_mem_nil _), rfl⟩

/-- One call keeps the invariant of the pending buffer. -/
theorem step_bufferInv (sent : List Message) (g : Logger) (op : Op) (h : BufferInv sent g) :
    BufferInv (sent ++ messagesOf [op]) (step g op) := by
  obtain ⟨hbuf, hsig⟩ := h
  cases op with
  | message m =>
    constructor
    · show MadeOf _ (messageOutput g m.type m.category m.msg).m_buffer
      rw [messageOutput_buffer]
      simp only [appendedBy, messagesOf]
      split
      · rw [String.append_empty]
        exact hbuf.mono _
      · rename_i hcond
        exact hbuf.snoc m (fun e => hcond (Or.inr (Or.inl e))) (fun e => hcond (Or.inr (Or.inr e)))
    · intro batch hb
      change Signal.messageArrived batch ∈ (messageOutput g m.type m.category m.msg).signals at hb
      rw [messageOutput_signals] at hb
      apply MadeOf.mono
      apply hsig
      split at hb
      · simpa using hb
      · exact hb
  | logLevel level =>
    exact ⟨hbuf.mono _, fun batch hb => (hsig batch hb).mono _⟩
  | errorCount count =>
    constructor
    · have : (step g (Op.errorCount count)).m_buffer = g.m_buffer := by
        simp only [step, setErrorCount]
        split <;> rfl
      rw [this]
      exact hbuf.mono _
    · intro batch hb
      apply MadeOf.mono
      apply hsig
      simp only [step, setErrorCount] at hb
      split at hb
      · exact hb
      · simpa using hb
  | timer =>
    by_cases he : g.m_buffer = ""
    · show BufferInv _ (timerEvent g)
      rw [timerEvent_of_empty g he]
      exact ⟨hbuf.mono _, fun batch hb => (hsig batch hb).mono _⟩
    · show BufferInv _ (timerEvent g)
      rw [timerEvent_of_nonempty g he]
      refine ⟨MadeOf.empty _, ?_⟩
      intro batch hb
      apply MadeOf.mono
      simp only [List.mem_append, List.mem_singleton, Signal.messageArrived.injEq] at hb
      rcases hb with hb | hb
      · exact hsig batch hb
      · rw [hb]
        exact hbuf

theorem messagesOf_cons (op : Op) (ops : List Op) :
    messagesOf (op :: ops) = messagesOf [op] ++ messagesOf ops := by
  cases op <;> simp [messagesOf]

theorem run_bufferInv (ops : List Op) : ∀ (sent : List Message) (g : Logger),
    BufferInv sent g → BufferInv (sent ++ messagesOf ops) (run g ops) := by
  induction ops with
  | nil =>
    intro sent g h
    simpa [run, messagesOf] using h
  | cons op ops ih =>
    intro sent g h
    have h' := ih _ _ (step_bufferInv sent g op h)
    rw [messagesOf_cons, ← List.append_assoc]
    exact h'

/-! ## The listing of the logs directory -/

theorem nameLE_total : ∀ a b : List Char, nameLE a b = true ∨ nameLE b a = true
  | [], _ => Or.inl (by simp [nameLE])
  | _ :: _, [] => Or.inr (by simp [nameLE])
  | a :: as, b :: bs => by
    have ih := nameLE_total as bs
    simp only [nameLE, Bool.or_eq_true, Bool.and_eq_true, decide_eq_true_eq]
    rcases Nat.lt_trichotomy a.toNat b.toNat with h | h | h
    · exact Or.inl (Or.inl h)
    · rcases ih with ih | ih
      · exact Or.inl (Or.inr ⟨h, ih⟩)
      · exact Or.inr (Or.inr ⟨h.symm, ih⟩)
    · exact Or.inr (Or.inl h)

theorem nameLE_trans : ∀ a b c : List Char,
    nameLE a b = true → nameLE b c = true → nameLE a c = true
  | [], _, _ => fun _ _ => by simp [nameLE]
  | _ :: _, [], _ => fun h _ => by simp [nameLE] at h
  | _ :: _, _ :: _, [] => fun _ h => by simp [nameLE] at h
  | a :: as, b :: bs, c :: cs => by
    have ih := nameLE_trans as bs cs
    simp only [nameLE, Bool.or_eq_true, Bool.and_eq_true, decide_eq_true_eq]
    rintro (h₁ | ⟨h₁, t₁⟩) (h₂ | ⟨h₂, t₂⟩)
    · exact Or.inl (by omega)
    · exact Or.inl (by omega)
    · exact Or.inl (by omega)
    · exact Or.inr ⟨by omega, ih t₁ t₂⟩

instance : IsTotal FileInfo listedBefore where
  total a b := by
    unfold listedBefore
    rcases lt_trichotomy a.lastModified b.lastModified with h | h | h
    · exact Or.inl (Or.inl h)
    · rcases nameLE_total b.fileName.data a.fileName.data with n | n
      · exact Or.inl (Or.inr ⟨h, n⟩)
      · exact Or.inr (Or.inr ⟨h.symm, n⟩)
    · exact Or.inr (Or.inl h)

instance : IsTrans FileInfo listedBefore where
  trans a b c := by
    unfold listedBefore
    rintro (h₁ | ⟨h₁, n₁⟩) (h₂ | ⟨h₂, n₂⟩)
    · exact Or.inl (by omega)
    · exact Or.inl (by omega)
    · exact Or.inl (by omega)
    · exact Or.inr ⟨by omega, nameLE_trans _ _ _ n₂ n₁⟩

theorem entryInfoList_perm (entries : List FileInfo) :
    (entryInfoList entries).Perm (entries.filter (fun e => e.isFile)) :=
  List.perm_insertionSort _ _

theorem entryInfoList_sorted (entries : List FileInfo) :
    (entryInfoList entries).Sorted listedBefore :=
  List.sorted_insertionSort _ _

theorem entryInfoList_length (entries : List FileInfo) :
    (entryInfoList entries).length = regularFileCount entries :=
  (entryInfoList_perm entries).length_eq

/-! ## `removeOldFiles` -/

theorem removeOldFilesLoop_eq (canRemove : String → Bool) (files : List FileInfo) :
    ∀ (todo i : Nat) (g : Logger), i + todo ≤ files.length →
      removeOldFilesLoop canRemove files todo i g =
        removeEach canRemove ((files.drop i).take todo) g := by
  intro todo
  induction todo with
  | zero => intro i g _; simp [removeOldFilesLoop, removeEach]
  | succ n ih =>
    intro i g h
    have hi : i < files.length := by omega
    rw [List.drop_eq_getElem_cons hi, List.take_succ_cons]
    simp only [removeOldFilesLoop, removeEach, List.get?_eq_getElem?, List.getElem?_eq_getElem hi]
    rcases hr : remove canRemove g.dirEntries files[i].fileName with ⟨ok, entries⟩
    cases ok
    · rfl
    · exact ih (i + 1) _ (by omega)

theorem removeOldFiles_eq (canRemove : String → Bool) (g : Logger) :
    removeOldFiles canRemove g =
      removeEach canRemove
        ((entryInfoList g.dirEntries).take (regularFileCount g.dirEntries - 99)) g := by
  unfold removeOldFiles
  simp only
  rw [removeOldFilesLoop_eq _ _ _ _ _ (by unfold maxFileCount; omega), entryInfoList_length]
  unfold maxFileCount
  simp only [List.drop_zero]
  congr 2
  omega

theorem remove_eq (canRemove : String → Bool) (entries : List FileInfo) (fileName : String) :
    remove canRemove entries fileName =
      if canRemove fileName = true ∧ ∃ e ∈ entries, e.fileName = fileName
      then (true, entries.filter (fun e => e.fileName != fileName))
      else (false, entries) := by
  unfold remove
  simp only [Bool.and_eq_true, List.any_eq_true, beq_iff_eq]

theorem removeEach_cons (canRemove : String → Bool) (f : FileInfo) (rest : List FileInfo)
    (g : Logger) :
    removeEach canRemove (f :: rest) g =
      if canRemove f.fileName = true ∧ ∃ e ∈ g.dirEntries, e.fileName = f.fileName
      then removeEach canRemove rest
        { g with dirEntries := g.dirEntries.filter (fun e => e.fileName != f.fileName) }
      else (false, fallbackMessageOutput g ("Failed to remove file: " ++ f.fileName)) := by
  by_cases h : canRemove f.fileName = true ∧ ∃ e ∈ g.dirEntries, e.fileName = f.fileName
  · simp only [removeEach, remove_eq, if_pos h]
  · simp only [removeEach, remove_eq, if_neg h]

/-- The members `removeEach` never touches. -/
theorem removeEach_frame (canRemove : String → Bool) (fs : List FileInfo) : ∀ g : Logger,
    (removeEach canRemove fs g).2.logFileOpen = g.logFileOpen ∧
    (removeEach canRemove fs g).2.m_buffer = g.m_buffer ∧
    (removeEach canRemove fs g).2.signals = g.signals ∧
    (removeEach canRemove fs g).2.m_logLevel = g.m_logLevel ∧
    (removeEach canRemove fs g).2.m_errorCount = g.m_errorCount ∧
    (removeEach canRemove fs g).2.fileOut = g.fileOut ∧
    (removeEach canRemove fs g).2.timerStarted = g.timerStarted := by
  induction fs with
  | nil => intro g; simp [removeEach]
  | cons f rest ih =>
    intro g
    rw [removeEach_cons]
    split
    · exact ih _
    · simp [fallbackMessageOutput]

/-- A pass that succeeds leaves the entries whose names it did not visit, and writes
nothing to standard error. -/
theorem removeEach_of_success (canRemove : String → Bool) (fs : List FileInfo) :
    ∀ g : Logger, (removeEach canRemove fs g).1 = true →
      (removeEach canRemove fs g).2.dirEntries =
        g.dirEntries.filter (fun e => decide (e.fileName ∉ fs.map FileInfo.fileName)) ∧
      (removeEach canRemove fs g).2.stderrOut = g.stderrOut := by
  induction fs with
  | nil => intro g _; simp [removeEach]
  | cons f rest ih =>
    intro g
    rw [removeEach_cons]
    split
    · intro h
      obtain ⟨h₁, h₂⟩ := ih _ h
      refine ⟨?_, h₂⟩
      rw [h₁]
      simp only [List.filter_filter]
      congr 1
      funext e
      by_cases h1 : e.fileName = f.fileName <;>
        by_cases h2 : e.fileName ∈ List.map FileInfo.fileName rest <;>
        simp [h1, h2]
    · intro h
      simp at h

/-- A pass over files of the directory with distinct names, all of which the file
system lets go, succeeds. -/
theorem removeEach_succeeds (canRemove : String → Bool) (fs : List FileInfo) :
    ∀ g : Logger, (fs.map FileInfo.fileName).Nodup →
      (∀ f ∈ fs, canRemove f.fileName = true ∧ f ∈ g.dirEntries) →
      (removeEach canRemove fs g).1 = true := by
  induction fs with
  | nil => intro g _ _; simp [removeEach]
  | cons f rest ih =>
    intro g hnd hall
    have hf := hall f (List.mem_cons_self _ _)
    rw [removeEach_cons, if_pos ⟨hf.1, f, hf.2, rfl⟩]
    simp only [List.map_cons, List.nodup_cons] at hnd
    apply ih _ hnd.2
    intro x hx
    have hxall := hall x (List.mem_cons_of_mem _ hx)
    refine ⟨hxall.1, ?_⟩
    simp only [List.mem_filter, bne_iff_ne, ne_eq]
    refine ⟨hxall.2, ?_⟩
    intro e
    exact hnd.1 (e ▸ List.mem_map_of_mem _ hx)

theorem length_filter_of_take (p : FileInfo → Bool) (l : List FileInfo) (n : Nat)
    (h : ∀ a ∈ l.take n, ¬ p a = true) : (l.filter p).length ≤ l.length - n := by
  have hsplit : l.filter p = (l.take n).filter p ++ (l.drop n).filter p := by
    rw [← List.filter_append, List.take_append_drop]
  rw [hsplit, List.filter_eq_nil_iff.2 h, List.nil_append]
  calc _ ≤ (l.drop n).length := List.length_filter_le _ _
    _ = _ := List.length_drop _ _

theorem filter_isFile_comm (p : FileInfo → Bool) (l : List FileInfo) :
    (l.filter p).filter (fun e => e.isFile) = (l.filter (fun e => e.isFile)).filter p := by
  rw [List.filter_filter, List.filter_filter]
  congr 1
  funext a
  exact Bool.and_comm _ _

/-- The number of regular files a successful pass over the `n` oldest files leaves. -/
theorem regularFileCount_filter_take (entries : List FileInfo) (n : Nat) :
    regularFileCount (entries.filter (fun e =>
        decide (e.fileName ∉ ((entryInfoList entries).take n).map FileInfo.fileName))) ≤
      regularFileCount entries - n := by
  unfold regularFileCount
  rw [filter_isFile_comm, ((entryInfoList_perm entries).filter _).symm.length_eq,
    ← (entryInfoList_perm entries).length_eq]
  apply length_filter_of_take
  intro a ha
  simp only [decide_eq_true_eq, not_not]
  exact List.mem_map_of_mem _ ha

theorem removeOldFiles_frame (canRemove : String → Bool) (g : Logger) :
    (removeOldFiles canRemove g).2.logFileOpen = g.logFileOpen ∧
    (removeOldFiles canRemove g).2.m_buffer = g.m_buffer ∧
    (removeOldFiles canRemove g).2.signals = g.signals ∧
    (removeOldFiles canRemove g).2.m_logLevel = g.m_logLevel ∧
    (removeOldFiles canRemove g).2.m_errorCount = g.m_errorCount ∧
    (removeOldFiles canRemove g).2.fileOut = g.fileOut ∧
    (removeOldFiles canRemove g).2.timerStarted = g.timerStarted := by
  rw [removeOldFiles_eq]
  exact removeEach_frame _ _ _

/-- A pruning that succeeds leaves at most 99 regular files. -/
theorem removeOldFiles_count_le (canRemove : String → Bool) (g : Logger)
    (h : (removeOldFiles canRemove g).1 = true) :
    regularFileCount (removeOldFiles canRemove g).2.dirEntries ≤ 99 := by
  rw [removeOldFiles_eq] at h ⊢
  rw [(removeEach_of_success _ _ _ h).1]
  have := regularFileCount_filter_take g.dirEntries (regularFileCount g.dirEntries - 99)
  omega

/-- The logger right after construction has an empty pending buffer and has emitted no
signal. -/
theorem new_buffer (env : Env) :
    (Logger.new env).m_buffer = "" ∧ (Logger.new env).signals = [] := by
  unfold Logger.new
  simp only
  split
  · exact ⟨rfl, rfl⟩
  · split
    · exact ⟨rfl, rfl⟩
    · have hf := removeOldFiles_frame env.canRemove
        { Logger.initial with dirEntries := env.entries }
      rcases hr : removeOldFiles env.canRemove
        { Logger.initial with dirEntries := env.entries } with ⟨ok, g₁⟩
      rw [hr] at hf
      cases ok
      · exact ⟨hf.2.1, hf.2.2.1⟩
      · simp only
        split
        · exact ⟨hf.2.1, hf.2.2.1⟩
        · exact ⟨hf.2.1, hf.2.2.1⟩

/-- When the constructor leaves the log file open, pruning succeeded and the directory
is the pruned one with the new log file in it. -/
theorem new_open (env : Env) (h : (Logger.new env).logFileOpen = true) :
    (removeOldFiles env.canRemove { Logger.initial with dirEntries := env.entries }).1 = true ∧
    (Logger.new env).dirEntries =
      openWriteOnly
        (removeOldFiles env.canRemove { Logger.initial with dirEntries := env.entries }).2.dirEntries
        (logFileName env) env.now := by
  unfold Logger.new at h ⊢
  simp only at h ⊢
  split at h
  · cases h
  · rw [if_neg (by assumption)]
    split at h
    · cases h
    · rw [if_neg (by assumption)]
      have hf := removeOldFiles_frame env.canRemove
        { Logger.initial with dirEntries := env.entries }
      rcases hr : removeOldFiles env.canRemove
        { Logger.initial with dirEntries := env.entries } with ⟨ok, g₁⟩
      rw [hr] at hf h
      cases ok
      · simp only [fallbackMessageOutput] at h
        rw [hf.1] at h
        cases h
      · simp only at h ⊢
        split at h
        · simp only [fallbackMessageOutput] at h
          rw [hf.1] at h
          cases h
        · rw [if_neg (by assumption)]
          exact ⟨trivial, rfl⟩

theorem regularFileCount_openWriteOnly (entries : List FileInfo) (fileName : String) (now : Int) :
    regularFileCount (openWriteOnly entries fileName now) ≤ regularFileCount entries + 1 := by
  unfold regularFileCount openWriteOnly
  rw [List.filter_append, List.length_append, filter_isFile_comm]
  have := List.length_filter_le (fun e : FileInfo => e.fileName != fileName)
    (entries.filter (fun e => e.isFile))
  simp only [List.filter_cons, List.filter_nil]
  simp only [if_true, List.length_singleton]
  omega

theorem openWriteOnly_others (entries : List FileInfo) (fileName : String) (now : Int) :
    ((openWriteOnly entries fileName now).filter
      (fun e => e.isFile && e.fileName != fileName)).length ≤ regularFileCount entries := by
  unfold openWriteOnly regularFileCount
  rw [List.filter_append, List.length_append, List.filter_filter]
  have h₁ := List.length_filter_le (fun e : FileInfo => e.fileName != fileName)
    (entries.filter (fun e => e.isFile))
  rw [List.filter_filter] at h₁
  have h₂ : (fun a : FileInfo => (a.isFile && a.fileName != fileName) && a.fileName != fileName) =
      (fun a => a.fileName != fileName && a.isFile) := by
    funext a
    cases a.isFile <;> cases (a.fileName != fileName) <;> rfl
  rw [h₂]
  simp only [List.filter_cons, List.filter_nil, bne_self_eq_false, Bool.and_false]
  simp only [Bool.false_eq_true, if_false, List.length_nil]
  omega

/-! ## Claims about the pending buffer over runs -/

/-- C6: in every state reached from a freshly constructed logger by any sequence of
`messageOutput`, `setLogLevel`, `setErrorCount` and `timerEvent` calls, the pending
buffer is the concatenation of the entries of some of the messages sent, in order, each
with a category other than `"default"` and a severity other than debug, and so is every
batch delivered through `messageArrived`.  A message of the category `"default"`, of any
severity, leaves the pending buffer and the signals as they are, and is written to the
file when the file is open. -/
theorem pending_buffer_provenance (env : Env) (ops : List Op) :
    (∃ ms : List Message, ms.Sublist (messagesOf ops) ∧
      (∀ m ∈ ms, m.category ≠ "default" ∧ m.type ≠ QtMsgType.QtDebugMsg) ∧
      (run (Logger.new env) ops).m_buffer = entriesOf ms) ∧
    (∀ batch, Signal.messageArrived batch ∈ (run (Logger.new env) ops).signals →
      ∃ ms : List Message, ms.Sublist (messagesOf ops) ∧
        (∀ m ∈ ms, m.category ≠ "default" ∧ m.type ≠ QtMsgType.QtDebugMsg) ∧
        batch = entriesOf ms) ∧
    (∀ (g : Logger) (type : QtMsgType) (text : String),
      (messageOutput g type "default" text).m_buffer = g.m_buffer ∧
      (messageOutput g type "default" text).signals = g.signals ∧
      (g.logFileOpen = true →
        (messageOutput g type "default" text).fileOut =
          g.fileOut ++ ("[" ++ "default" ++ "] " ++ text) ++ "\n")) := by
  have h0 : BufferInv [] (Logger.new env) := by
    obtain ⟨hb, hs⟩ := new_buffer env
    refine ⟨hb ▸ MadeOf.empty _, ?_⟩
    intro batch h
    rw [hs] at h
    cases h
  have h := run_bufferInv ops [] (Logger.new env) h0
  rw [List.nil_append] at h
  refine ⟨h.1, h.2, ?_⟩
  intro g type text
  refine ⟨?_, ?_, ?_⟩
  · have hb := messageOutput_buffer g ⟨type, "default", text⟩
    simp only [appendedBy, or_true, true_or, if_true, String.append_empty] at hb
    exact hb
  · rw [messageOutput_signals, if_neg (fun h => h.2 rfl)]
  · intro ho
    rw [messageOutput_fileOut, if_pos ho]
    rfl

/-- Witness of C6: the batch delivered in the run `sampleOps`, and a critical message of
the category `"default"` on the fresh logger, whose file is open. -/
theorem pending_buffer_provenance_witness :
    (∃ ms : List Message, ms.Sublist (messagesOf sampleOps) ∧
      (∀ m ∈ ms, m.category ≠ "default" ∧ m.type ≠ QtMsgType.QtDebugMsg) ∧
      "[usb] unplugged<br>" = entriesOf ms) ∧
    (messageOutput sampleLogger QtMsgType.QtCriticalMsg "default" "disk full").fileOut =
      sampleLogger.fileOut ++ ("[" ++ "default" ++ "] " ++ "disk full") ++ "\n" :=
  ⟨(pending_buffer_provenance sampleEnv sampleOps).2.1 "[usb] unplugged<br>" (by decide),
   ((pending_buffer_provenance sampleEnv sampleOps).2.2 sampleLogger QtMsgType.QtCriticalMsg
    "disk full").2.2 (by decide)⟩

/-! ## Claims about the retention of log files -/

/-- C9, as stated, fails: with 99 log files in the directory the constructor prunes
nothing, opens the new log file and leaves 100 regular files. -/
theorem constructor_leaves_100 :
    (Logger.new env99).logFileOpen = true ∧
    regularFileCount env99.entries = 99 ∧
    regularFileCount (Logger.new env99).dirEntries = 100 ∧
    ¬ regularFileCount (Logger.new env99).dirEntries ≤ 99 := by
  decide

/-- C9, amended: when the constructor finishes with the new log file open (so pruning
succeeded), the logs directory holds at most 99 regular files besides the new log file,
and at most 100 regular files with it. -/
theorem constructor_retention (env : Env) (h : (Logger.new env).logFileOpen = true) :
    ((Logger.new env).dirEntries.filter
      (fun e => e.isFile && e.fileName != logFileName env)).length ≤ 99 ∧
    regularFileCount (Logger.new env).dirEntries ≤ 100 := by
  obtain ⟨hok, hdir⟩ := new_open env h
  have hle := removeOldFiles_count_le _ _ hok
  rw [hdir]
  exact ⟨(openWriteOnly_others _ _ _).trans hle,
    (regularFileCount_openWriteOnly _ _ _).trans (Nat.succ_le_succ hle)⟩

/-- Witness of C9, amended: the construction over a directory of 99 log files. -/
theorem constructor_retention_witness :
    ((Logger.new env99).dirEntries.filter
      (fun e => e.isFile && e.fileName != logFileName env99)).length ≤ 99 ∧
    regularFileCount (Logger.new env99).dirEntries ≤ 100 :=
  constructor_retention env99 (by decide)

/-- C3: on a logs directory of more than 99 regular files with distinct modification
times (and, as in any directory, distinct names), when every deletion the loop performs
succeeds (the file system lets go each of the oldest files in excess of 99; nothing is
asked of the files that are kept), `removeOldFiles` returns true, exactly 99 regular files remain, nothing is added or
reordered, and each deleted entry is a regular file older than every regular file that
is kept, so the 99 most recently modified files remain.  On a directory of at most 99
regular files `removeOldFiles` returns true and changes nothing. -/
theorem removeOldFiles_keeps_newest (canRemove : String → Bool) (g : Logger) :
    ((g.dirEntries.map FileInfo.fileName).Nodup →
      ((g.dirEntries.filter (fun e => e.isFile)).map FileInfo.lastModified).Nodup →
      (∀ f ∈ (entryInfoList g.dirEntries).take (regularFileCount g.dirEntries - 99),
        canRemove f.fileName = true) →
      99 < regularFileCount g.dirEntries →
        (removeOldFiles canRemove g).1 = true ∧
        regularFileCount (removeOldFiles canRemove g).2.dirEntries = 99 ∧
        (removeOldFiles canRemove g).2.dirEntries.Sublist g.dirEntries ∧
        (∀ d ∈ g.dirEntries, d ∉ (removeOldFiles canRemove g).2.dirEntries →
          d.isFile = true ∧
          ∀ k ∈ (removeOldFiles canRemove g).2.dirEntries, k.isFile = true →
            d.lastModified < k.lastModified)) ∧
    (regularFileCount g.dirEntries ≤ 99 → removeOldFiles canRemove g = (true, g)) := by
  constructor
  · intro hnames htimes hdel hmany
    rw [removeOldFiles_eq]
    generalize hn : regularFileCount g.dirEntries - 99 = n at hdel ⊢
    have hperm := entryInfoList_perm g.dirEntries
    have hmemFiles : ∀ f, f ∈ entryInfoList g.dirEntries ↔ f ∈ g.dirEntries ∧ f.isFile = true := by
      intro f
      rw [hperm.mem_iff, List.mem_filter]
    have hfilesNames : ((entryInfoList g.dirEntries).map FileInfo.fileName).Nodup := by
      rw [(hperm.map FileInfo.fileName).nodup_iff]
      exact ((List.filter_sublist _).map _).nodup hnames
    have htakeMem : ∀ f ∈ (entryInfoList g.dirEntries).take n, f ∈ g.dirEntries ∧ f.isFile = true :=
      fun f hf => (hmemFiles f).1 (List.mem_of_mem_take hf)
    have hok : (removeEach canRemove ((entryInfoList g.dirEntries).take n) g).1 = true := by
      apply removeEach_succeeds
      · exact ((List.take_sublist _ _).map _).nodup hfilesNames
      · intro f hf
        exact ⟨hdel f hf, (htakeMem f hf).1⟩
    have hdir := (removeEach_of_success _ _ _ hok).1
    -- an entry of the directory whose name was visited is one of the visited files
    have hvisited : ∀ d ∈ g.dirEntries,
        d.fileName ∈ ((entryInfoList g.dirEntries).take n).map FileInfo.fileName →
        d ∈ (entryInfoList g.dirEntries).take n := by
      intro d hd hname
      obtain ⟨f, hf, hfd⟩ := List.mem_map.1 hname
      have := List.inj_on_of_nodup_map hnames (htakeMem f hf).1 hd hfd
      exact this ▸ hf
    -- the files beyond the first `n` have names that were not visited
    have hdropNames : ∀ k ∈ (entryInfoList g.dirEntries).drop n,
        k.fileName ∉ ((entryInfoList g.dirEntries).take n).map FileInfo.fileName := by
      intro k hk hname
      have hd : List.Disjoint (((entryInfoList g.dirEntries).take n).map FileInfo.fileName)
          (((entryInfoList g.dirEntries).drop n).map FileInfo.fileName) := by
        apply List.disjoint_of_nodup_append
        rw [← List.map_append, List.take_append_drop]
        exact hfilesNames
      exact hd hname (List.mem_map_of_mem _ hk)
    refine ⟨hok, ?_, ?_, ?_⟩
    · rw [hdir]
      unfold regularFileCount
      rw [filter_isFile_comm, (hperm.filter _).symm.length_eq]
      have hsplit : (entryInfoList g.dirEntries).filter (fun e => decide (e.fileName ∉
          ((entryInfoList g.dirEntries).take n).map FileInfo.fileName)) =
          (entryInfoList g.dirEntries).drop n := by
        conv_lhs =>
          arg 2
          rw [← List.take_append_drop n (entryInfoList g.dirEntries)]
        rw [List.filter_append]
        have h₁ : ((entryInfoList g.dirEntries).take n).filter (fun e => decide (e.fileName ∉
            ((entryInfoList g.dirEntries).take n).map FileInfo.fileName)) = [] := by
          rw [List.filter_eq_nil_iff]
          intro a ha
          simp only [decide_eq_true_eq, not_not]
          exact List.mem_map_of_mem _ ha
        have h₂ : ((entryInfoList g.dirEntries).drop n).filter (fun e => decide (e.fileName ∉
            ((entryInfoList g.dirEntries).take n).map FileInfo.fileName)) =
            (entryInfoList g.dirEntries).drop n := by
          rw [List.filter_eq_self]
          intro a ha
          simp only [decide_eq_true_eq]
          exact hdropNames a ha
        rw [h₁, h₂, List.nil_append]
      rw [hsplit, List.length_drop, entryInfoList_length]
      omega
    · rw [hdir]
      exact List.filter_sublist _
    · intro d hd hgone
      rw [hdir] at hgone
      have hname : d.fileName ∈ ((entryInfoList g.dirEntries).take n).map FileInfo.fileName := by
        by_contra hc
        exact hgone (List.mem_filter.2 ⟨hd, by simpa using hc⟩)
      have hdTake := hvisited d hd hname
      refine ⟨(htakeMem d hdTake).2, ?_⟩
      intro k hk hkFile
      rw [hdir, List.mem_filter] at hk
      have hkName : k.fileName ∉ ((entryInfoList g.dirEntries).take n).map FileInfo.fileName := by
        simpa using hk.2
      have hkFiles : k ∈ entryInfoList g.dirEntries := (hmemFiles k).2 ⟨hk.1, hkFile⟩
      have hkDrop : k ∈ (entryInfoList g.dirEntries).drop n := by
        rw [← List.take_append_drop n (entryInfoList g.dirEntries), List.mem_append] at hkFiles
        rcases hkFiles with h | h
        · exact absurd (List.mem_map_of_mem _ h) hkName
        · exact h
      have hrel := (entryInfoList_sorted g.dirEntries).rel_of_mem_take_of_mem_drop hdTake hkDrop
      rcases hrel with hlt | ⟨heq, _⟩
      · exact hlt
      · exfalso
        have hdk : d = k := List.inj_on_of_nodup_map htimes
          (List.mem_filter.2 ⟨hd, (htakeMem d hdTake).2⟩) (List.mem_filter.2 ⟨hk.1, hkFile⟩) heq
        exact hkName (hdk ▸ hname)
  · intro hfew
    rw [removeOldFiles_eq]
    have : regularFileCount g.dirEntries - 99 = 0 := by omega
    rw [this, List.take_zero]
    rfl

/-- Witness of C3: pruning a directory of 101 log files when the file system lets go
every file but the newest, which is kept anyway, and pruning a directory of 3 log
files. -/
theorem removeOldFiles_keeps_newest_witness :
    ((removeOldFiles keepNewest crowdedLogger).1 = true ∧
      regularFileCount (removeOldFiles keepNewest crowdedLogger).2.dirEntries = 99 ∧
      (removeOldFiles keepNewest crowdedLogger).2.dirEntries.Sublist crowdedLogger.dirEntries ∧
      (∀ d ∈ crowdedLogger.dirEntries,
        d ∉ (removeOldFiles keepNewest crowdedLogger).2.dirEntries →
        d.isFile = true ∧
        ∀ k ∈ (removeOldFiles keepNewest crowdedLogger).2.dirEntries, k.isFile = true →
          d.lastModified < k.lastModified)) ∧
    removeOldFiles keepNewest quietLogger = (true, quietLogger) :=
  ⟨(removeOldFiles_keeps_newest keepNewest crowdedLogger).1
      (by decide) (by decide) (by decide) (by decide),
   (removeOldFiles_keeps_newest keepNewest quietLogger).2 (by decide)⟩

end QFlipper
